import Mathlib

/-!
Shallow embedding of src/SoundCompass/MainVisual.py.

Angles and scale factors are modelled as exact rationals.  Pointer angles
(the results of the external get_mouse_angle / math.atan2 computation,
line 123-127) are taken as inputs of the event step function, since the
event handlers only ever consume the computed angle.  Image surfaces are
modelled by their asset filenames: load_image_centered (line 25-30) is an
excluded external collaborator that only wraps pygame asset loading.
-/

/-- One entry of the param_images mapping (MainVisual.py line 22-23,38):
a parameter name, its active flag and its ordered image layers (by
filename). -/
structure Overlay where
  name : String
  active : Bool
  images : List String
  deriving DecidableEq

/-- add_param_images (line 32-38): registers one parameter with its image
layers, initially inactive.  Dict insertion order is modelled by list
order. -/
def add_param_images (t : List Overlay) (param : String) (filenames : List String) :
    List Overlay :=
  t ++ [{ name := param, active := false, images := filenames }]

/-- The param_images table after the six registration calls
(line 41-46). -/
def param_images : List Overlay :=
  add_param_images
    (add_param_images
      (add_param_images
        (add_param_images
          (add_param_images
            (add_param_images [] ("notes") ["VisualDot.png", "VisualLine.png"])
            ("beat") ["SoundDot.png", "SoundLine.png"])
          ("drum") ["SmellDot.png", "SmellLine.png"])
        ("drumBeat") ["MindDot.png", "MindLine.png"])
      ("ambient") ["TasteDot.png", "TasteLine.png"])
    ("rythmn") ["TouchDot.png", "TouchLine.png", "GeneralLine.png"]

/-- Line 63: msg.replace removes every newline, carriage return, tab and
semicolon from the decoded chunk (each replace deletes all occurrences of
one character, so the four chained replaces amount to filtering those four
characters out). -/
def pd_strip (msg : String) : String :=
  String.mk (msg.toList.filter (fun c => !(c == '\n' || c == '\r' || c == '\t' || c == ';')))

/-- Line 65: msg.split() — Python str.split with no argument splits on
whitespace runs and drops empty tokens. -/
def pd_tokens (msg : String) : List String :=
  ((List.splitOnP (fun c => c.isWhitespace) (pd_strip msg).toList).map
    (fun l => String.mk l)).filter (fun tk => tk != "")

/-- Line 63-72: handling of one decoded chunk.  Exactly-two-token messages
whose first token is a registered parameter set that entry's active flag
to (value_str == "1"); every other message leaves the table unchanged (the
code only prints a diagnostic). -/
def pd_handle_msg (t : List Overlay) (msg : String) : List Overlay :=
  match pd_tokens msg with
  | [param_name, value_str] =>
    if t.any (fun o => o.name == param_name) then
      t.map (fun o => if o.name == param_name then { o with active := value_str == "1" } else o)
    else t
  | _ => t

/-- Model of the external Python bytes.decode("utf-8") call on line 63:
standard UTF-8 decoding, none where CPython raises UnicodeDecodeError
(invalid start byte, truncated or invalid continuation, overlong form,
surrogate or out-of-range code point). -/
def utf8_decode? : List Nat → Option (List Char)
  | [] => some []
  | b :: rest =>
    if b < 128 then
      Option.map (fun cs => Char.ofNat b :: cs) (utf8_decode? rest)
    else if b < 194 then none
    else if b < 224 then
      match rest with
      | c1 :: rest2 =>
        if 128 ≤ c1 ∧ c1 < 192 then
          Option.map (fun cs => Char.ofNat ((b - 192) * 64 + (c1 - 128)) :: cs)
            (utf8_decode? rest2)
        else none
      | [] => none
    else if b < 240 then
      match rest with
      | c1 :: c2 :: rest2 =>
        if (128 ≤ c1 ∧ c1 < 192) ∧ (128 ≤ c2 ∧ c2 < 192) then
          if (b - 224) * 4096 + (c1 - 128) * 64 + (c2 - 128) < 2048 ∨
              (55296 ≤ (b - 224) * 4096 + (c1 - 128) * 64 + (c2 - 128) ∧
                (b - 224) * 4096 + (c1 - 128) * 64 + (c2 - 128) ≤ 57343) then none
          else
            Option.map
              (fun cs => Char.ofNat ((b - 224) * 4096 + (c1 - 128) * 64 + (c2 - 128)) :: cs)
              (utf8_decode? rest2)
        else none
      | _ => none
    else if b < 245 then
      match rest with
      | c1 :: c2 :: c3 :: rest2 =>
        if (128 ≤ c1 ∧ c1 < 192) ∧ (128 ≤ c2 ∧ c2 < 192) ∧ (128 ≤ c3 ∧ c3 < 192) then
          if (b - 240) * 262144 + (c1 - 128) * 4096 + (c2 - 128) * 64 + (c3 - 128) < 65536 ∨
              1114112 ≤ (b - 240) * 262144 + (c1 - 128) * 4096 + (c2 - 128) * 64 + (c3 - 128) then
            none
          else
            Option.map
              (fun cs =>
                Char.ofNat
                  ((b - 240) * 262144 + (c1 - 128) * 4096 + (c2 - 128) * 64 + (c3 - 128)) :: cs)
              (utf8_decode? rest2)
        else none
      | _ => none
    else none

/-- One iteration of the inner recv loop of pd_server_thread
(line 59-72) on a nonempty chunk: decode the received bytes as UTF-8 and
process the chunk as a single message.  The try block of line 58-74 has a
finally clause but no except clause, so a decode failure is an exception
that escapes the loop; the Except error value models that escaping
exception. -/
def pd_process_chunk (t : List Overlay) (data : List Nat) : Except String (List Overlay) :=
  match utf8_decode? data with
  | some cs => Except.ok (pd_handle_msg t (String.mk cs))
  | none => Except.error ("UnicodeDecodeError")

/-- Observing one entry of the table: the active flag of the first (in a
dict: the unique) entry with the given name. -/
def lookup_active (t : List Overlay) (param : String) : Option Bool :=
  Option.map (fun o => o.active) (t.find? (fun o => o.name == param))

/-- SNAP_ANGLES (line 113). -/
def SNAP_ANGLES : List ℚ := [90, 180]

/-- MAX_SCALE (line 117). -/
def MAX_SCALE : ℚ := 5

/-- gauge_rot_speed_factor (line 109). -/
def gauge_rot_speed_factor : ℚ := 2

/-- snap_to_nearest_angle (line 129-131): Python min(angle_list, key=...)
keeps the first element whose key is strictly smaller than the best so
far, so ties go to the earlier element.  Python min raises on an empty
list; the only call site passes SNAP_ANGLES, so the empty case (returning
the angle unchanged) is unreachable. -/
def snap_to_nearest_angle (angle : ℚ) : List ℚ → ℚ
  | [] => angle
  | a :: rest => rest.foldl (fun best x => if |x - angle| < |best - angle| then x else best) a

/-- smooth_approach (line 133-135). -/
def smooth_approach (current target factor : ℚ) : ℚ :=
  current + (target - current) * factor

/-- n applications of the per-frame easing step of line 201-202, which
calls smooth_approach with factor 0.2. -/
def ease_iter : Nat → ℚ → ℚ → ℚ
  | 0, current, _ => current
  | Nat.succ n, current, target => smooth_approach (ease_iter n current target) target (1/5)

/-- Line 173-177: single-step wraparound normalization of the raw angle
difference. -/
def normalize_delta (delta_angle : ℚ) : ℚ :=
  if delta_angle > 180 then delta_angle - 360
  else if delta_angle < -180 then delta_angle + 360
  else delta_angle

/-- Line 182-193: the lines_scale_factor update for one (already
normalized) delta_angle — plus/minus 0.01 depending on the sign of the
delta, then the two sequential clamping ifs. -/
def lines_step (lsf delta_angle : ℚ) : ℚ :=
  let l1 := if delta_angle < 0 then lsf + 1/100
            else if delta_angle > 0 then lsf - 1/100
            else lsf
  let l2 := if l1 < 1 then 1 else l1
  if l2 > MAX_SCALE then MAX_SCALE else l2

/-- The mutable state of the main loop (line 104-121).  arc/gauge currents
and targets, angles, lines scale, and the mouse drag state. -/
structure AppState where
  dragging : Bool
  old_angle : ℚ
  handle_angle : ℚ
  gauge_angle : ℚ
  lines_scale_factor : ℚ
  arc_scale_current : ℚ
  arc_scale_target : ℚ
  gauge_scale_current : ℚ
  gauge_scale_target : ℚ
  deriving DecidableEq

/-- Initial values of the main-loop state (line 104-121). -/
def init_state : AppState :=
  { dragging := false, old_angle := 0, handle_angle := 0, gauge_angle := 0,
    lines_scale_factor := 1, arc_scale_current := 1, arc_scale_target := 1,
    gauge_scale_current := 1, gauge_scale_target := 1 }

/-- The pointer events consumed by the event loop (line 142-198).  The
pygame QUIT event only clears the running flag and is omitted.  Mouse
positions enter the handlers only through get_mouse_angle, so events carry
the computed pointer angle. -/
inductive PgEvent where
  | mouseDown (button : Nat) (pointer_angle : ℚ)
  | mouseUp (button : Nat)
  | mouseMotion (pointer_angle : ℚ)
  deriving DecidableEq

/-- The event handlers of the main loop (line 146-198). -/
def step (s : AppState) (e : PgEvent) : AppState :=
  match e with
  | PgEvent.mouseDown button pointer_angle =>
    if button = 1 then
      { s with dragging := true, old_angle := pointer_angle,
               arc_scale_target := 6/5, gauge_scale_target := 11/10 }
    else s
  | PgEvent.mouseUp button =>
    if button = 1 then
      { s with dragging := false, arc_scale_target := 1, gauge_scale_target := 1,
               handle_angle := snap_to_nearest_angle s.handle_angle SNAP_ANGLES }
    else s
  | PgEvent.mouseMotion pointer_angle =>
    if s.dragging then
      { s with handle_angle := s.handle_angle + normalize_delta (pointer_angle - s.old_angle),
               lines_scale_factor :=
                 lines_step s.lines_scale_factor (normalize_delta (pointer_angle - s.old_angle)),
               gauge_angle :=
                 s.gauge_angle +
                   normalize_delta (pointer_angle - s.old_angle) * gauge_rot_speed_factor,
               old_angle := pointer_angle }
    else s

/-- One drawing operation of the compositing pass (line 207-260), back to
front.  Each constructor records which surface a screen.blit call draws
and the transform parameters applied to it; the rotate calls of line 238
and 258 negate the stored angle, recorded here as the negated argument. -/
inductive DrawOp where
  | overlay (param : String) (image : String) (scale : ℚ)
  | mask
  | boldCircle
  | thinCircle
  | gauge (scale : ℚ) (rot : ℚ)
  | thickArc (scale : ℚ)
  | thinArc (scale : ℚ)
  | handle (rot : ℚ)
  deriving DecidableEq

/-- Line 209-222: the PD overlay pass — for each table entry in order,
if active, blit each of its images (scaled by lines_scale_factor; the
lines_scale_factor = 1.0 branch blits the unscaled surface, which is the
same drawing at scale 1). -/
def overlay_draws (table : List Overlay) (lsf : ℚ) : List DrawOp :=
  table.flatMap (fun o =>
    if o.active then o.images.map (fun img => DrawOp.overlay o.name img lsf) else [])

/-- The full compositing pass of one frame (line 207-260): overlays first,
then mask, bold circle, thin circle, gauge (scaled, rotated by the negated
gauge angle), thick arc, thin arc, and the handle (rotated by the negated
handle angle). -/
def draw_frame (table : List Overlay) (s : AppState) : List DrawOp :=
  overlay_draws table s.lines_scale_factor ++
    [DrawOp.mask, DrawOp.boldCircle, DrawOp.thinCircle,
     DrawOp.gauge s.gauge_scale_current (-s.gauge_angle),
     DrawOp.thickArc s.arc_scale_current, DrawOp.thinArc s.arc_scale_current,
     DrawOp.handle (-s.handle_angle)]

/-- The double-click bookkeeping of the interaction state machine
(spec section 3 InteractionState). -/
structure ClickState where
  isFullscreen : Bool
  lastClickTimeMs : Int
  deriving DecidableEq

/-- Modelled from the spec: the double-click fullscreen toggle of spec
section 4.3 (PointerDown).  The window-management variant of the main loop
that implements it is not under src/ — the MOUSEBUTTONDOWN handler of
src/SoundCompass/MainVisual.py line 146-154 has no click-time logic and no
fullscreen state.  Per the spec: on a primary-button PointerDown at time t,
if the elapsed time since the previous PointerDown is below the 300 ms
double-click threshold, isFullscreen is toggled (and a display-mode change
is requested from the external window-management collaborator); in all
cases the click time is recorded. -/
def pointer_down_click (s : ClickState) (t : Int) : ClickState :=
  if t - s.lastClickTimeMs < 300 then
    { isFullscreen := !s.isFullscreen, lastClickTimeMs := t }
  else
    { isFullscreen := s.isFullscreen, lastClickTimeMs := t }

/-! ## Helper lemmas -/

theorem ease_iter_closed (n : Nat) (c t : ℚ) :
    ease_iter n c t = t + (4/5)^n * (c - t) := by
  induction n with
  | zero => simp [ease_iter]
  | succ n ih =>
    simp only [ease_iter, smooth_approach, ih, pow_succ]
    ring

theorem lines_step_bounds (f d : ℚ) :
    1 ≤ lines_step f d ∧ lines_step f d ≤ MAX_SCALE := by
  simp only [lines_step, MAX_SCALE]
  split_ifs <;> constructor <;> linarith

theorem scanl_lines_bounds :
    ∀ (ds : List ℚ) (f : ℚ), 1 ≤ f → f ≤ MAX_SCALE →
      ∀ x ∈ List.scanl lines_step f ds, 1 ≤ x ∧ x ≤ MAX_SCALE := by
  intro ds
  induction ds with
  | nil =>
    intro f h1 h2 x hx
    simp only [List.scanl_nil, List.mem_singleton] at hx
    exact hx ▸ ⟨h1, h2⟩
  | cons d ds ih =>
    intro f h1 h2 x hx
    simp only [List.scanl_cons, List.singleton_append, List.mem_cons] at hx
    rcases hx with rfl | hx
    · exact ⟨h1, h2⟩
    · exact ih (lines_step f d) (lines_step_bounds f d).1 (lines_step_bounds f d).2 x hx

theorem snap_pair (a : ℚ) :
    snap_to_nearest_angle a SNAP_ANGLES = if |180 - a| < |90 - a| then 180 else 90 := by
  simp [snap_to_nearest_angle, SNAP_ANGLES, List.foldl]

/-! ## Claim theorems -/

/-- C1: for every pair of primary-button PointerDown events whose
timestamps differ by less than 300 ms, the second PointerDown toggles
isFullscreen (accompanied by the display-mode change request) exactly once
for the pair; PointerDown events separated by 300 ms or more never toggle
it.  Both clicks record their own timestamp, so the second click's elapsed
time is exactly t2 - t1. -/
theorem C1_spec (s : ClickState) (t1 t2 : Int) :
    (t2 - t1 < 300 →
      (pointer_down_click (pointer_down_click s t1) t2).isFullscreen
        = !(pointer_down_click s t1).isFullscreen) ∧
    (300 ≤ t2 - t1 →
      (pointer_down_click (pointer_down_click s t1) t2).isFullscreen
        = (pointer_down_click s t1).isFullscreen) := by
  constructor <;> intro h <;>
    simp only [pointer_down_click] <;>
    split_ifs <;> simp_all <;> omega

/-- C1 witness: from a non-fullscreen start, a down at 1000 ms followed by
one at 1100 ms toggles, while a follow-up at 1500 ms does not. -/
theorem C1_witness :
    (pointer_down_click (pointer_down_click (ClickState.mk false 0) 1000) 1100).isFullscreen
      = !(pointer_down_click (ClickState.mk false 0) 1000).isFullscreen ∧
    (pointer_down_click (pointer_down_click (ClickState.mk false 0) 1000) 1500).isFullscreen
      = (pointer_down_click (ClickState.mk false 0) 1000).isFullscreen :=
  ⟨(C1_spec (ClickState.mk false 0) 1000 1100).1 (by decide),
   (C1_spec (ClickState.mk false 0) 1000 1500).2 (by decide)⟩

/-- C2 counterexample: the raw difference -180 is attainable during a
Dragging PointerMove — with lastPointerAngleDeg 180 (pointer left of
center, atan2 gives exactly 180) and newAngle 0 (pointer right of center),
the raw difference 0 - 180 = -180 is left at -180 by the normalization
(lines 174-177 only correct deltas strictly above 180 or strictly below
-180), which is outside the claimed half-open range (-180, 180]; the
motion handler then adds exactly that -180 to the handle angle. -/
theorem C2_cex :
    normalize_delta (0 - 180) = -180 ∧
    ¬ ((-180 : ℚ) < normalize_delta (0 - 180)) ∧
    (step (AppState.mk true 180 0 0 1 1 1 1 1) (PgEvent.mouseMotion 0)).handle_angle
      = -180 := by
  refine ⟨by norm_num [normalize_delta], by norm_num [normalize_delta], ?_⟩
  norm_num [step, normalize_delta]

/-- C2 (amended): a PointerMove while Dragging advances the handle angle
by exactly the normalized raw difference newAngle - lastPointerAngleDeg,
and for every raw difference of two pointer angles (each in the atan2
range (-180, 180], so the raw difference lies in (-360, 360)) the single
add/subtract-360 correction lands in the closed range [-180, 180];
raw -350 normalizes to 10 and raw 350 to -10. -/
theorem C2_amended :
    (∀ raw : ℚ, -360 < raw → raw < 360 →
      -180 ≤ normalize_delta raw ∧ normalize_delta raw ≤ 180) ∧
    (∀ (s : AppState) (a : ℚ), s.dragging = true →
      (step s (PgEvent.mouseMotion a)).handle_angle
        = s.handle_angle + normalize_delta (a - s.old_angle)) ∧
    normalize_delta (-350) = 10 ∧ normalize_delta 350 = -10 := by
  refine ⟨fun raw h1 h2 => ?_, fun s a hs => ?_,
    by norm_num [normalize_delta], by norm_num [normalize_delta]⟩
  · unfold normalize_delta
    split_ifs <;> constructor <;> linarith
  · simp [step, hs]

/-- C2 witness: the amended range property applied to the raw delta 10,
and the motion-handler equation applied to a concrete dragging state with
last pointer angle 180 and new pointer angle 0. -/
theorem C2_witness :
    (-180 ≤ normalize_delta 10 ∧ normalize_delta 10 ≤ 180) ∧
    (step (AppState.mk true 180 0 0 1 1 1 1 1) (PgEvent.mouseMotion 0)).handle_angle
      = 0 + normalize_delta (0 - 180) :=
  ⟨C2_amended.1 10 (by norm_num) (by norm_num),
   C2_amended.2.1 (AppState.mk true 180 0 0 1 1 1 1 1) 0 rfl⟩

/-- C3: for every sequence of PointerMove deltas, the lines scale factor
stays within [1.0, MAX_SCALE] immediately after every update, starting
from its initial value 1.0 (the trace of updates is the scanl of the
per-event update from 1). -/
theorem C3_spec (ds : List ℚ) (x : ℚ) (hx : x ∈ List.scanl lines_step 1 ds) :
    1 ≤ x ∧ x ≤ MAX_SCALE :=
  scanl_lines_bounds ds 1 le_rfl (by norm_num [MAX_SCALE]) x hx

/-- C3 witness: the state reached after one counterclockwise delta from
the initial value is inside the bounds. -/
theorem C3_witness : 1 ≤ lines_step 1 (-3) ∧ lines_step 1 (-3) ≤ MAX_SCALE :=
  C3_spec [(-3 : ℚ)] (lines_step 1 (-3)) (by simp [List.scanl])

/-- C7 counterexample: with target 0 and starting current 1, after exactly
N = 30 easing iterations the distance is (4/5)^30 which is about 1.238e-3,
not below 1e-3 — so for an arbitrary starting current the claimed bound
fails at N = 30. -/
theorem C7_cex : ¬ (|ease_iter 30 1 0 - 0| < 1/1000) := by
  have e : ease_iter 30 1 0 = (4/5)^30 := by rw [ease_iter_closed]; ring
  rw [e, sub_zero, abs_of_pos (pow_pos (by norm_num) 30)]
  norm_num

/-- C7 (amended): the easing step never overshoots — the distance to the
target is non-increasing and current never crosses to the other side of
the target; and for initial gaps |current - target| at most 0.8 (the gaps
arising in the program never exceed 0.2), after any N at least 30
iterations the distance is below 1e-3. -/
theorem C7_amended (c t : ℚ) (n N : Nat) :
    |ease_iter (n+1) c t - t| ≤ |ease_iter n c t - t| ∧
    (c ≤ t → ease_iter n c t ≤ t) ∧
    (t ≤ c → t ≤ ease_iter n c t) ∧
    (|c - t| ≤ 4/5 → 30 ≤ N → |ease_iter N c t - t| < 1/1000) := by
  have key : ∀ m : Nat, ease_iter m c t - t = (4/5)^m * (c - t) := by
    intro m; rw [ease_iter_closed]; ring
  have h45 : |(4:ℚ)/5| = 4/5 := by norm_num
  refine ⟨?_, ?_, ?_, ?_⟩
  · rw [key, key, abs_mul, abs_mul, abs_pow, abs_pow, h45]
    exact mul_le_mul_of_nonneg_right
      (pow_le_pow_of_le_one (by norm_num) (by norm_num) (Nat.le_succ n)) (abs_nonneg _)
  · intro h
    have hp : (0:ℚ) ≤ (4/5)^n := pow_nonneg (by norm_num) n
    nlinarith [key n]
  · intro h
    have hp : (0:ℚ) ≤ (4/5)^n := pow_nonneg (by norm_num) n
    nlinarith [key n]
  · intro hg hN
    have h1 : |ease_iter N c t - t| = (4/5)^N * |c - t| := by
      rw [key N, abs_mul, abs_pow, h45]
    rw [h1]
    have h2 : ((4:ℚ)/5)^N * |c - t| ≤ (4/5)^N * (4/5) :=
      mul_le_mul_of_nonneg_left hg (pow_nonneg (by norm_num) N)
    have h3 : ((4:ℚ)/5)^N * (4/5) = (4/5)^(N+1) := by rw [pow_succ]
    have h4 : ((4:ℚ)/5)^(N+1) ≤ (4/5)^31 :=
      pow_le_pow_of_le_one (by norm_num) (by norm_num) (by omega)
    have h5 : ((4:ℚ)/5)^31 < 1/1000 := by norm_num
    linarith

/-- C7 witness: the amended easing properties applied at concrete inputs —
gap zero (current = target = 1) for the two sign-preservation parts, and
the gap 1/2 start for the convergence bound at N = 30. -/
theorem C7_witness :
    |ease_iter 1 1 1 - 1| ≤ |ease_iter 0 1 1 - 1| ∧
    ease_iter 0 1 1 ≤ 1 ∧ (1:ℚ) ≤ ease_iter 0 1 1 ∧
    |ease_iter 30 (1/2) 0 - 0| < 1/1000 :=
  ⟨(C7_amended 1 1 0 30).1, (C7_amended 1 1 0 30).2.1 le_rfl,
   (C7_amended 1 1 0 30).2.2.1 le_rfl,
   (C7_amended (1/2) 0 0 30).2.2.2
     (by rw [sub_zero, abs_of_pos (show (0:ℚ) < 1/2 by norm_num)]; norm_num) le_rfl⟩

/-- C4: on every primary-button PointerUp the handle angle is set to the
member of the snap set {90, 180} minimizing the absolute difference to its
pre-release value, ties broken in favor of 90 (the first-listed value);
pre-release 100 snaps to 90 and pre-release 170 snaps to 180. -/
theorem C4_spec :
    (∀ s : AppState,
      ((step s (PgEvent.mouseUp 1)).handle_angle = 90 ∨
        (step s (PgEvent.mouseUp 1)).handle_angle = 180) ∧
      |(step s (PgEvent.mouseUp 1)).handle_angle - s.handle_angle| ≤ |90 - s.handle_angle| ∧
      |(step s (PgEvent.mouseUp 1)).handle_angle - s.handle_angle| ≤ |180 - s.handle_angle| ∧
      (|90 - s.handle_angle| = |180 - s.handle_angle| →
        (step s (PgEvent.mouseUp 1)).handle_angle = 90)) ∧
    snap_to_nearest_angle 100 SNAP_ANGLES = 90 ∧
    snap_to_nearest_angle 170 SNAP_ANGLES = 180 := by
  refine ⟨fun s => ?_, ?_, ?_⟩
  · have hred : (step s (PgEvent.mouseUp 1)).handle_angle =
        if |180 - s.handle_angle| < |90 - s.handle_angle| then 180 else 90 := by
      simp [step, snap_pair]
    rw [hred]
    by_cases h : |180 - s.handle_angle| < |90 - s.handle_angle|
    · rw [if_pos h]
      refine ⟨Or.inr rfl, le_of_lt h, le_refl _, ?_⟩
      intro he
      rw [he] at h
      exact absurd h (lt_irrefl _)
    · rw [if_neg h]
      exact ⟨Or.inl rfl, le_refl _, le_of_not_lt h, fun _ => rfl⟩
  · rw [snap_pair]
    norm_num
  · rw [snap_pair]
    norm_num

/-- C4 witness: at the tie point 135 (equidistant from 90 and 180) the
release snaps to 90, the first-listed snap angle. -/
theorem C4_witness :
    (step (AppState.mk false 0 135 0 1 1 1 1 1) (PgEvent.mouseUp 1)).handle_angle = 90 :=
  (C4_spec.1 (AppState.mk false 0 135 0 1 1 1 1 1)).2.2.2
    (show |(90:ℚ) - 135| = |(180:ℚ) - 135| by norm_num)

/-- C10: a primary-button PointerUp received while Idle (dragging =
false) still resets the arc and gauge scale targets to 1.0 and snaps the
handle angle to the nearest snap-set member — the handler does not test
the drag state. -/
theorem C10_spec (s : AppState) (_hd : s.dragging = false) :
    (step s (PgEvent.mouseUp 1)).arc_scale_target = 1 ∧
    (step s (PgEvent.mouseUp 1)).gauge_scale_target = 1 ∧
    (step s (PgEvent.mouseUp 1)).handle_angle =
      snap_to_nearest_angle s.handle_angle SNAP_ANGLES ∧
    (step s (PgEvent.mouseUp 1)).dragging = false := by
  simp [step]

/-- C10 witness: an Idle state with arc target 1.2 and handle angle 100 —
the PointerUp changes it (arc target becomes 1, the handle snaps). -/
theorem C10_witness :
    (step (AppState.mk false 0 100 0 1 1 (6/5) 1 1) (PgEvent.mouseUp 1)).arc_scale_target = 1 ∧
    (step (AppState.mk false 0 100 0 1 1 (6/5) 1 1) (PgEvent.mouseUp 1)).gauge_scale_target = 1 ∧
    (step (AppState.mk false 0 100 0 1 1 (6/5) 1 1) (PgEvent.mouseUp 1)).handle_angle =
      snap_to_nearest_angle 100 SNAP_ANGLES ∧
    (step (AppState.mk false 0 100 0 1 1 (6/5) 1 1) (PgEvent.mouseUp 1)).dragging = false :=
  C10_spec (AppState.mk false 0 100 0 1 1 (6/5) 1 1) rfl

theorem lookup_map_update_eq (name v : String) :
    ∀ t : List Overlay, t.any (fun o => o.name == name) = true →
      lookup_active
        (t.map (fun o => if o.name == name then { o with active := v == "1" } else o)) name
        = some (v == "1") := by
  intro t
  induction t with
  | nil => intro h; simp at h
  | cons o rest ih =>
    intro h
    by_cases ho : (o.name == name) = true
    · simp [lookup_active, List.find?, ho]
    · have hrest : rest.any (fun o => o.name == name) = true := by
        simp only [List.any_cons, ho, Bool.false_or] at h
        exact h
      simpa [lookup_active, List.find?, ho] using ih hrest

theorem find_map_update_ne (name v k : String) (hk : k ≠ name) :
    ∀ t : List Overlay,
      (t.map (fun o => if o.name == name then { o with active := v == "1" } else o)).find?
          (fun o => o.name == k)
        = t.find? (fun o => o.name == k) := by
  intro t
  induction t with
  | nil => rfl
  | cons o rest ih =>
    rw [List.map_cons, List.find?_cons, List.find?_cons]
    by_cases hok : (o.name == k) = true
    · have ho : o.name = k := by simpa using hok
      have hon : (o.name == name) = false := by simp [ho, hk]
      have hupd2 :
          (if o.name == name then ({ o with active := v == "1" } : Overlay) else o) = o :=
        if_neg (by simp [hon])
      simp only [hupd2, hok]
    · have hokf : (o.name == k) = false := by simpa using hok
      have hupd :
          ((if o.name == name then ({ o with active := v == "1" } : Overlay) else o)).name
            = o.name := by
        by_cases hon : (o.name == name) = true
        · rw [if_pos hon]
        · rw [if_neg hon]
      have hscrut :
          (((if o.name == name then ({ o with active := v == "1" } : Overlay) else o)).name
              == k) = false := by
        rw [hupd]
        exact hokf
      simp only [hscrut, hokf]
      exact ih

theorem names_map_update (name v : String) :
    ∀ t : List Overlay,
      (t.map (fun o => if o.name == name then { o with active := v == "1" } else o)).map
          (fun o => o.name)
        = t.map (fun o => o.name) := by
  intro t
  induction t with
  | nil => rfl
  | cons o rest ih =>
    simp only [List.map_cons]
    rw [ih]
    by_cases hon : (o.name == name) = true
    · rw [if_pos hon]
    · rw [if_neg hon]

/-- C5: a well-formed two-token message with a registered parameter name
sets that entry active iff the value token is textually "1" (any other
token sets it inactive), leaves every other entry unchanged; a message
with token count different from 2, or an unregistered name, leaves the
table unchanged; and no handling ever inserts a key (the name column is
invariant).  The handler is a total function on the decoded text, so no
message closes the connection. -/
theorem C5_spec (t : List Overlay) (msg name v k : String) :
    (pd_tokens msg = [name, v] → t.any (fun o => o.name == name) = true →
      lookup_active (pd_handle_msg t msg) name = some (v == "1")) ∧
    (pd_tokens msg = [name, v] → t.any (fun o => o.name == name) = true → k ≠ name →
      lookup_active (pd_handle_msg t msg) k = lookup_active t k) ∧
    (pd_tokens msg = [name, v] → t.any (fun o => o.name == name) = false →
      pd_handle_msg t msg = t) ∧
    ((pd_tokens msg).length ≠ 2 → pd_handle_msg t msg = t) ∧
    (pd_handle_msg t msg).map (fun o => o.name) = t.map (fun o => o.name) := by
  refine ⟨?_, ?_, ?_, ?_, ?_⟩
  · intro htok hreg
    simp only [pd_handle_msg, htok, hreg, if_true]
    exact lookup_map_update_eq name v t hreg
  · intro htok hreg hk
    simp only [pd_handle_msg, htok, hreg, if_true]
    simp only [lookup_active, find_map_update_ne name v k hk t]
  · intro htok hreg
    simp [pd_handle_msg, htok, hreg]
  · intro hlen
    rcases htok : pd_tokens msg with _ | ⟨a, _ | ⟨b, _ | ⟨c, rest⟩⟩⟩
    · simp [pd_handle_msg, htok]
    · simp [pd_handle_msg, htok]
    · exact absurd (by rw [htok]; rfl) hlen
    · simp [pd_handle_msg, htok]
  · rcases htok : pd_tokens msg with _ | ⟨a, _ | ⟨b, _ | ⟨c, rest⟩⟩⟩
    · simp [pd_handle_msg, htok]
    · simp [pd_handle_msg, htok]
    · by_cases hreg : t.any (fun o => o.name == a) = true
      · simp only [pd_handle_msg, htok, hreg, if_true]
        exact names_map_update a b t
      · simp [pd_handle_msg, htok, hreg]
    · simp [pd_handle_msg, htok]

/-- C5 witness: on the registered table, "notes 1" activates notes, a
following "notes 0" deactivates it, "bogus 1" and the one-token "notes"
leave the table unchanged, and "notes 1" does not touch the beat entry. -/
theorem C5_witness :
    lookup_active (pd_handle_msg param_images ("notes 1")) ("notes") = some true ∧
    lookup_active (pd_handle_msg (pd_handle_msg param_images ("notes 1")) ("notes 0"))
        ("notes") = some false ∧
    pd_handle_msg param_images ("bogus 1") = param_images ∧
    pd_handle_msg param_images ("notes") = param_images ∧
    lookup_active (pd_handle_msg param_images ("notes 1")) ("beat")
      = lookup_active param_images ("beat") :=
  ⟨(C5_spec param_images ("notes 1") ("notes") ("1") ("beat")).1 (by decide) (by decide),
   (C5_spec (pd_handle_msg param_images ("notes 1")) ("notes 0") ("notes") ("0")
      ("beat")).1 (by decide) (by decide),
   (C5_spec param_images ("bogus 1") ("bogus") ("1") ("beat")).2.2.1 (by decide) (by decide),
   (C5_spec param_images ("notes") ("notes") ("1") ("beat")).2.2.2.1 (by decide),
   (C5_spec param_images ("notes 1") ("notes") ("1") ("beat")).2.1 (by decide) (by decide)
     (by decide)⟩

/-- C6 counterexample: the chunk consisting of the single byte 0xFF is not
valid UTF-8; processing it yields an escaping decode error, not an updated
table — the service loop has no except clause, so this parse failure is
not swallowed and the thread does not keep running. -/
theorem C6_cex : ¬ ∃ t2, pd_process_chunk param_images [255] = Except.ok t2 := by
  intro h
  obtain ⟨t2, h⟩ := h
  have hdec : utf8_decode? [255] = none := by decide
  simp [pd_process_chunk, hdec] at h

/-- C6 (amended): processing a received chunk succeeds exactly when the
bytes decode as UTF-8 — message parsing itself is total and never throws,
so on any valid-UTF-8 chunk the service continues with the updated table;
but a chunk that is not valid UTF-8 raises a decode error that the
try/finally (which has no except clause) lets escape the service loop. -/
theorem C6_amended (t : List Overlay) (data : List Nat) :
    ((∃ t2, pd_process_chunk t data = Except.ok t2) ↔ (∃ cs, utf8_decode? data = some cs)) ∧
    (∀ cs, utf8_decode? data = some cs →
      pd_process_chunk t data = Except.ok (pd_handle_msg t (String.mk cs))) := by
  constructor
  · constructor
    · rintro ⟨t2, h⟩
      rcases hdec : utf8_decode? data with _ | cs
      · simp [pd_process_chunk, hdec] at h
      · exact ⟨cs, rfl⟩
    · rintro ⟨cs, hdec⟩
      exact ⟨pd_handle_msg t (String.mk cs), by simp [pd_process_chunk, hdec]⟩
  · intro cs hdec
    simp [pd_process_chunk, hdec]

/-- C6 witness: the single-byte chunk 0x6E ("n") decodes and is processed
to a normally-returned table. -/
theorem C6_witness :
    pd_process_chunk param_images [110] =
      Except.ok (pd_handle_msg param_images (String.mk ['n'])) :=
  (C6_amended param_images [110]).2 ['n'] (by decide)

/-- C8 counterexample: when the two newline-terminated records "notes 1"
and "beat 1" arrive in one read, the service does not split them — the
newline stripping concatenates them into the single three-token message
"notes 1beat 1", so neither the notes entry nor the beat entry becomes
active, against the claimed per-record updates. -/
theorem C8_cex :
    ¬ (lookup_active (pd_handle_msg param_images ("notes 1\nbeat 1\n")) ("notes")
          = some true ∧
       lookup_active (pd_handle_msg param_images ("notes 1\nbeat 1\n")) ("beat")
          = some true) := by
  decide

/-- C8 (amended): the service does not split a received chunk on line
boundaries; it strips the newline (and CR/tab/semicolon) characters and
parses the whole chunk as one message.  Two newline-terminated records in
one read are concatenated into one malformed message and produce no
update, for any table state; each record updates its entry only when it
arrives in its own read. -/
theorem C8_amended :
    (∀ t : List Overlay, pd_handle_msg t ("notes 1\nbeat 1\n") = t) ∧
    lookup_active (pd_handle_msg param_images ("notes 1")) ("notes") = some true ∧
    lookup_active (pd_handle_msg (pd_handle_msg param_images ("notes 1")) ("beat 1"))
        ("beat") = some true ∧
    lookup_active (pd_handle_msg (pd_handle_msg param_images ("notes 1")) ("beat 1"))
        ("notes") = some true := by
  refine ⟨?_, by decide, by decide, by decide⟩
  intro t
  have htok : pd_tokens ("notes 1\nbeat 1\n") = ["notes", "1beat", "1"] := by decide
  simp [pd_handle_msg, htok]

/-- C9: in every composited frame, for every table state and entry order,
the draw list is the active overlays' layers followed by the fixed tail
mask, bold circle, thin circle, gauge, thick arc, thin arc, handle in that
back-to-front order — so every active overlay layer is drawn strictly
before (beneath) all of them. -/
theorem C9_spec (table : List Overlay) (s : AppState) :
    ∃ pre,
      draw_frame table s =
        pre ++ [DrawOp.mask, DrawOp.boldCircle, DrawOp.thinCircle,
          DrawOp.gauge s.gauge_scale_current (-s.gauge_angle),
          DrawOp.thickArc s.arc_scale_current, DrawOp.thinArc s.arc_scale_current,
          DrawOp.handle (-s.handle_angle)] ∧
      ∀ op ∈ pre, ∃ o img, o ∈ table ∧ o.active = true ∧ img ∈ o.images ∧
        op = DrawOp.overlay o.name img s.lines_scale_factor := by
  refine ⟨overlay_draws table s.lines_scale_factor, rfl, ?_⟩
  intro op hop
  simp only [overlay_draws, List.mem_flatMap] at hop
  obtain ⟨o, ho, hop⟩ := hop
  by_cases hact : o.active = true
  · rw [if_pos hact, List.mem_map] at hop
    obtain ⟨img, himg, rfl⟩ := hop
    exact ⟨o, img, ho, hact, himg, rfl⟩
  · rw [if_neg hact] at hop
    simp at hop

/-- C9 witness: the frame decomposition at the startup table and the
initial animation state. -/
theorem C9_witness :
    ∃ pre,
      draw_frame param_images init_state =
        pre ++ [DrawOp.mask, DrawOp.boldCircle, DrawOp.thinCircle,
          DrawOp.gauge init_state.gauge_scale_current (-init_state.gauge_angle),
          DrawOp.thickArc init_state.arc_scale_current,
          DrawOp.thinArc init_state.arc_scale_current,
          DrawOp.handle (-init_state.handle_angle)] ∧
      ∀ op ∈ pre, ∃ o img, o ∈ param_images ∧ o.active = true ∧ img ∈ o.images ∧
        op = DrawOp.overlay o.name img init_state.lines_scale_factor :=
  C9_spec param_images init_state
